import Mathlib

/-
Verification of the Daily-Task-Scheduler reminder core.

Shallow embedding conventions:
- Python naive UTC datetimes are modelled as integers counting seconds since
  1970-01-01 00:00:00 UTC (a Thursday).  Comparison and timedelta arithmetic on
  datetimes coincide with integer comparison and addition in this model.
- A calendar date string "YYYY-MM-DD" (as parsed by strptime and as compared
  lexicographically in the store) is modelled as the integer day count since
  the epoch; lexicographic order on valid ISO date strings agrees with this
  integer order.  A time-of-day string "HH:MM" is modelled as minutes since
  midnight.
- The parsed form of the recurrence_days string (the set of weekday indices
  produced by splitting on commas) is modelled as a List Int; a Python None or
  empty string is modelled as Option.none.
- Nullable columns are Option Int; SQL comparisons against NULL select nothing,
  which the embedding reflects by matching on the Option.
-/

namespace Scheduler

/-- Constant MISSED_REMINDER_HOUR_LOCAL from reminder_logic.py. -/
def MISSED_REMINDER_HOUR_LOCAL : Int := 9

/-- Constant SNOOZE_OPTIONS_MINUTES from reminder_logic.py. -/
def SNOOZE_OPTIONS_MINUTES : List Int := [5, 10, 30, 60]

/-- Constant BEFORE_OPTIONS_MINUTES from reminder_logic.py. -/
def BEFORE_OPTIONS_MINUTES : List Int := [0, 5, 10, 15, 30, 60]

/-- Python weekday() of a datetime: Monday = 0 .. Sunday = 6.  The epoch day
1970-01-01 is a Thursday, weekday index 3. -/
def weekday (t : Int) : Int := (t / 86400 + 3) % 7

/-- task_scheduled_utc from reminder_logic.py: convert the stored local
date+time of a task to a naive UTC datetime by subtracting the offset. -/
def task_scheduled_utc (scheduled_date scheduled_time tz_offset_minutes : Int) : Int :=
  scheduled_date * 86400 + scheduled_time * 60 - tz_offset_minutes * 60

/-- The while loop shared by the daily and weekly branches of
compute_next_fire_at: while cursor <= now: cursor += step.  The loop only
runs for a positive step (86400 or 604800 at both call sites); the guard
0 < step makes the recursion well founded. -/
def advanceLoop (step now cursor : Int) : Int :=
  if _h : 0 < step ∧ cursor ≤ now then advanceLoop step now (cursor + step)
  else cursor
termination_by (now + step - cursor).toNat
decreasing_by
  omega

/-- The bounded probe loop of the weekdays branch of compute_next_fire_at:
up to 14 single-day steps, accepting the first cursor that is a Mon-Fri day
strictly after now. -/
def scanWeekdaysLoop (now : Int) : Nat → Int → Option Int
  | 0, _ => none
  | n + 1, cursor =>
    if weekday cursor < 5 ∧ now < cursor then some cursor
    else scanWeekdaysLoop now n (cursor + 86400)

/-- The bounded probe loop of the custom branch of compute_next_fire_at:
up to 14 single-day steps, accepting the first cursor whose weekday index is
a member of the parsed recurrence_days set and that is strictly after now. -/
def scanCustomLoop (allowed : List Int) (now : Int) : Nat → Int → Option Int
  | 0, _ => none
  | n + 1, cursor =>
    if weekday cursor ∈ allowed ∧ now < cursor then some cursor
    else scanCustomLoop allowed now n (cursor + 86400)

/-- compute_next_fire_at from reminder_logic.py.  The call to datetime.utcnow
inside the Python function is made an explicit final argument now_utc.  A
Python falsy recurrence (None or the empty string) selects the one-shot
branch; the datetime truthiness of last_fired_at is a plain None test. -/
def compute_next_fire_at (reminder_type : String)
    (scheduled_date scheduled_time before_minutes tz_offset_minutes : Int)
    (recurrence : Option String) (recurrence_days : Option (List Int))
    (last_fired_at : Option Int) (now_utc : Int) : Option Int :=
  if reminder_type = "missed" then
    let local_now := now_utc + tz_offset_minutes * 60
    let today_local_9am := local_now / 86400 * 86400 + MISSED_REMINDER_HOUR_LOCAL * 3600
    let today_9am_utc := today_local_9am - tz_offset_minutes * 60
    let result_local :=
      if today_9am_utc ≤ now_utc then today_local_9am + 86400 else today_local_9am
    some (result_local - tz_offset_minutes * 60)
  else
    let base_utc := task_scheduled_utc scheduled_date scheduled_time tz_offset_minutes
    let fire_utc := base_utc - before_minutes * 60
    let rcr := recurrence.getD ""
    if rcr = "" then
      if now_utc < fire_utc then some fire_utc else none
    else
      if last_fired_at = none ∧ now_utc < fire_utc then some fire_utc
      else
        let cursor := last_fired_at.getD fire_utc
        if rcr = "daily" then some (advanceLoop 86400 now_utc cursor)
        else if rcr = "weekly" then some (advanceLoop 604800 now_utc cursor)
        else if rcr = "weekdays" then scanWeekdaysLoop now_utc 14 (cursor + 86400)
        else if rcr = "custom" then
          match recurrence_days with
          | some allowed => scanCustomLoop allowed now_utc 14 (cursor + 86400)
          | none => none
        else none

/-- is_due from reminder_logic.py, with the datetime.utcnow call made an
explicit argument. -/
def is_due (next_fire_at : Option Int) (tolerance_seconds now : Int) : Bool :=
  match next_fire_at with
  | none => false
  | some t => decide (now - tolerance_seconds ≤ t) && decide (t ≤ now + 30)

/-- Task row from models.py, restricted to the columns the reminder core
reads.  scheduled_date is the day count of the stored "YYYY-MM-DD" string,
scheduled_time the minutes-of-day of the stored "HH:MM" string. -/
structure Task where
  id : Int
  scheduled_date : Int
  scheduled_time : Int
  is_completed : Bool
deriving DecidableEq

/-- TaskReminder row from models.py, restricted to the columns the reminder
core reads or writes (created_at is never consulted by the core and is
omitted).  The recurrence column keeps the raw string, so the NULL and
empty-string cases stay distinguishable exactly as in the store. -/
structure TaskReminder where
  id : Int
  task_id : Int
  reminder_type : String
  before_minutes : Int
  recurrence : Option String
  recurrence_days : Option (List Int)
  status : String
  next_fire_at : Option Int
  snooze_until : Option Int
  fire_count : Int
  fired_at : Option Int
  acknowledged_at : Option Int
deriving DecidableEq

/-- The persisted state the core operates on: the tasks table and the
task_reminders table. -/
structure Store where
  tasks : List Task
  reminders : List TaskReminder
deriving DecidableEq

/-- The relationship lookup reminder.task: the task row whose primary key
matches the foreign key of the reminder. -/
def findTask (tasks : List Task) (tid : Int) : Option Task :=
  tasks.find? (fun t => t.id == tid)

/-- Step 1 of _tick in reminder_service.py, applied to one reminder: the SQL
filter selects status in (pending, snoozed) with next_fire_at <= now + 30s (a
NULL next_fire_at is never selected), and each selected row is flipped to due
with fired_at = now and fire_count incremented. -/
def promoteOne (now : Int) (r : TaskReminder) : TaskReminder :=
  match r.next_fire_at with
  | none => r
  | some t =>
    if (r.status = "pending" ∨ r.status = "snoozed") ∧ t ≤ now + 30 then
      { r with status := "due", fired_at := some now, fire_count := r.fire_count + 1 }
    else r

/-- Step 2 of _tick in reminder_service.py, applied to one reminder: rows with
status acknowledged and a non-NULL, non-empty recurrence recompute the next
fire time (with tz_offset_minutes = 0 and last_fired_at = fired_at) and, when
one exists, are re-armed to pending with acknowledged_at cleared.  A missing
or completed task leaves the row untouched. -/
def rearmOne (tasks : List Task) (now : Int) (r : TaskReminder) : TaskReminder :=
  if r.status = "acknowledged" ∧ ¬ r.recurrence = none ∧ ¬ r.recurrence = some "" then
    match findTask tasks r.task_id with
    | none => r
    | some task =>
      if task.is_completed then r
      else
        match compute_next_fire_at r.reminder_type task.scheduled_date task.scheduled_time
            r.before_minutes 0 r.recurrence r.recurrence_days r.fired_at now with
        | some next_fire =>
          { r with next_fire_at := some next_fire, status := "pending",
                   acknowledged_at := none }
        | none => r
  else r

/-- The overdue-task query of _create_missed_reminders: not completed, with
scheduled_date between today minus 7 days and yesterday inclusive (the string
comparisons on "YYYY-MM-DD" agree with day-count comparisons). -/
def overdueTasks (tasks : List Task) (now : Int) : List Task :=
  let today := now / 86400
  let week_ago := today - 7
  let yesterday := today - 1
  tasks.filter (fun t =>
    !t.is_completed && decide (week_ago ≤ t.scheduled_date)
      && decide (t.scheduled_date ≤ yesterday))

/-- The predicate of the existing-reminder query inside
_create_missed_reminders: a reminder of type missed for the given task in
status pending, due or snoozed. -/
def activeMissedFor (tid : Int) (r : TaskReminder) : Bool :=
  r.task_id == tid && r.reminder_type == "missed"
    && (r.status == "pending" || r.status == "due" || r.status == "snoozed")

/-- The TaskReminder(...) row constructed by _create_missed_reminders: type
missed, status pending, firing at 09:00 UTC on the day after now; unset
columns take their model defaults (fire_count 0, NULLs elsewhere).  The
database-assigned primary key is modelled as 0. -/
def mkMissedReminder (tid now : Int) : TaskReminder :=
  { id := 0, task_id := tid, reminder_type := "missed", before_minutes := 0,
    recurrence := none, recurrence_days := none, status := "pending",
    next_fire_at := some (now / 86400 * 86400 + 9 * 3600 + 86400),
    snooze_until := none, fire_count := 0, fired_at := none, acknowledged_at := none }

/-- The per-task loop of _create_missed_reminders.  Each iteration queries the
reminders of the session as they stand, so a row added for an earlier task in
the same run is already visible to the existence check (SQLAlchemy autoflush). -/
def createMissedLoop (now : Int) : List Task → List TaskReminder → List TaskReminder
  | [], rems => rems
  | task :: rest, rems =>
    match rems.find? (activeMissedFor task.id) with
    | some _ => createMissedLoop now rest rems
    | none => createMissedLoop now rest (rems ++ [mkMissedReminder task.id now])

/-- _create_missed_reminders from reminder_service.py as a store transformer. -/
def create_missed_reminders (db : Store) (now : Int) : Store :=
  { db with reminders := createMissedLoop now (overdueTasks db.tasks now) db.reminders }

/-- _tick from reminder_service.py: promote due pending/snoozed reminders,
re-arm acknowledged recurring reminders, then create missed-task reminders,
all against one session whose commit is modelled by returning the new store.
Step 1 can only move rows out of the statuses step 2 selects (and conversely),
so applying the two per-row updates to every row in sequence coincides with
the two separate filtered queries of the source. -/
def tick (db : Store) (now : Int) : Store :=
  let rems1 := db.reminders.map (promoteOne now)
  let rems2 := rems1.map (rearmOne db.tasks now)
  { tasks := db.tasks,
    reminders := createMissedLoop now (overdueTasks db.tasks now) rems2 }

/-- Error outcome of a route handler: an HTTPException with a status code
of 404 (notFound) or 400 (badRequest) and its detail string. -/
inductive ApiError where
  | notFound : String → ApiError
  | badRequest : String → ApiError
deriving DecidableEq

/-- Result of running a route handler: either the committed store or the
raised error, in which case nothing was committed. -/
def applyResult (db : Store) (r : Except ApiError Store) : Store :=
  match r with
  | .ok db2 => db2
  | .error _ => db

/-- Boolean success test for a route handler result. -/
def isOkResult (r : Except ApiError Store) : Bool :=
  match r with
  | .ok _ => true
  | .error _ => false

/-- In-place ORM mutation of the row returned by query(...).first: rewrite the
first list entry with the given primary key. -/
def updateFirstReminder (rems : List TaskReminder) (rid : Int)
    (f : TaskReminder → TaskReminder) : List TaskReminder :=
  match rems with
  | [] => []
  | r :: rest =>
    if r.id == rid then f r :: rest else r :: updateFirstReminder rest rid f

/-- Request body of POST /api/reminders/ (schemas.ReminderCreate), with
recurrence_days already in parsed form. -/
structure ReminderCreate where
  task_id : Int
  reminder_type : String
  before_minutes : Int
  recurrence : Option String
  recurrence_days : Option (List Int)
  tz_offset_minutes : Int
deriving DecidableEq

/-- The TaskReminder(...) row persisted by create_reminder: configuration from
the body, status pending, the computed next_fire_at, defaults elsewhere.  The
database-assigned primary key is the new_id argument. -/
def mkCreatedReminder (body : ReminderCreate) (new_id : Int) (nfa : Option Int) :
    TaskReminder :=
  { id := new_id, task_id := body.task_id, reminder_type := body.reminder_type,
    before_minutes := body.before_minutes, recurrence := body.recurrence,
    recurrence_days := body.recurrence_days, status := "pending",
    next_fire_at := nfa, snooze_until := none, fire_count := 0,
    fired_at := none, acknowledged_at := none }

/-- create_reminder from routes/reminders.py.  The datetime.utcnow call and
the database-assigned id are explicit arguments. -/
def create_reminder (db : Store) (body : ReminderCreate) (new_id now : Int) :
    Except ApiError Store :=
  match findTask db.tasks body.task_id with
  | none => .error (.notFound "Task not found")
  | some task =>
    if task.is_completed then
      .error (.badRequest "Cannot add reminder to a completed task")
    else
      if body.reminder_type = "missed" then
        .ok { db with reminders := db.reminders
                ++ [mkCreatedReminder body new_id
                      (some (now / 86400 * 86400 + 9 * 3600 + 86400))] }
      else
        match compute_next_fire_at body.reminder_type task.scheduled_date
            task.scheduled_time body.before_minutes body.tz_offset_minutes
            body.recurrence body.recurrence_days none now with
        | none =>
          .error (.badRequest
            "Reminder time is already in the past and has no future recurrence.")
        | some next_fire =>
          .ok { db with reminders := db.reminders
                  ++ [mkCreatedReminder body new_id (some next_fire)] }

/-- acknowledge_reminder from routes/reminders.py. -/
def acknowledge_reminder (db : Store) (reminder_id now : Int) :
    Except ApiError Store :=
  match db.reminders.find? (fun r => r.id == reminder_id) with
  | none => .error (.notFound "Reminder not found")
  | some reminder =>
    if ¬ reminder.status = "due" then
      .error (.badRequest
        ("Reminder is in \x27" ++ reminder.status ++ "\x27 state, not \x27due\x27."))
    else
      let ackEdit : TaskReminder → TaskReminder :=
        fun r => { r with status := "acknowledged", acknowledged_at := some now }
      .ok { db with reminders := updateFirstReminder db.reminders reminder_id ackEdit }

/-- snooze_reminder from routes/reminders.py. -/
def snooze_reminder (db : Store) (reminder_id snooze_minutes now : Int) :
    Except ApiError Store :=
  match db.reminders.find? (fun r => r.id == reminder_id) with
  | none => .error (.notFound "Reminder not found")
  | some reminder =>
    if ¬ reminder.status = "due" then
      .error (.badRequest
        ("Can only snooze a \x27due\x27 reminder; current status is \x27"
          ++ reminder.status ++ "\x27."))
    else
      let snooze_until := now + snooze_minutes * 60
      let snoozeEdit : TaskReminder → TaskReminder :=
        fun r => { r with status := "snoozed", snooze_until := some snooze_until,
                          next_fire_at := some snooze_until }
      .ok { db with reminders := updateFirstReminder db.reminders reminder_id snoozeEdit }

def exC1r : TaskReminder :=
  { id := 7, task_id := 1, reminder_type := "exact", before_minutes := 0,
    recurrence := none, recurrence_days := none, status := "pending",
    next_fire_at := some (1000000 - 91), snooze_until := none, fire_count := 0,
    fired_at := none, acknowledged_at := none }

def exC1wr : TaskReminder :=
  { id := 3, task_id := 1, reminder_type := "exact", before_minutes := 0,
    recurrence := none, recurrence_days := none, status := "pending",
    next_fire_at := some 900, snooze_until := none, fire_count := 0,
    fired_at := none, acknowledged_at := none }

def exC1wdb : Store := { tasks := [], reminders := [exC1wr] }

def exC8task : Task := { id := 1, scheduled_date := 0, scheduled_time := 0, is_completed := false }

def exC8db : Store := { tasks := [exC8task], reminders := [] }

def exC8body : ReminderCreate :=
  { task_id := 1, reminder_type := "exact", before_minutes := 0,
    recurrence := none, recurrence_days := none, tz_offset_minutes := 0 }

def exC9r : TaskReminder :=
  { id := 4, task_id := 1, reminder_type := "exact", before_minutes := 0,
    recurrence := none, recurrence_days := none, status := "pending",
    next_fire_at := some 77, snooze_until := none, fire_count := 0,
    fired_at := none, acknowledged_at := none }

def exC9db : Store := { tasks := [], reminders := [exC9r] }

def exC10task : Task :=
  { id := 1, scheduled_date := 0, scheduled_time := 0, is_completed := true }

def exC10r : TaskReminder :=
  { id := 1, task_id := 1, reminder_type := "exact", before_minutes := 0,
    recurrence := none, recurrence_days := none, status := "pending",
    next_fire_at := some 995, snooze_until := none, fire_count := 2,
    fired_at := none, acknowledged_at := none }

def exC10r2 : TaskReminder :=
  { id := 2, task_id := 1, reminder_type := "exact", before_minutes := 0,
    recurrence := some "daily", recurrence_days := none, status := "acknowledged",
    next_fire_at := none, snooze_until := none, fire_count := 5,
    fired_at := some 100, acknowledged_at := some 150 }

def exC10db : Store := { tasks := [exC10task], reminders := [exC10r, exC10r2] }

def exC10promoted : TaskReminder :=
  { exC10r with
    status := "due",
    fired_at := some 1000,
    fire_count := exC10r.fire_count + 1 }

def exC5r : TaskReminder :=
  { id := 9, task_id := 1, reminder_type := "exact", before_minutes := 0,
    recurrence := none, recurrence_days := none, status := "snoozed",
    next_fire_at := some 500, snooze_until := some 500, fire_count := 1,
    fired_at := some 200, acknowledged_at := none }

def exC7task : Task :=
  { id := 1, scheduled_date := 7, scheduled_time := 540, is_completed := false }

def exC7db : Store := { tasks := [exC7task], reminders := [] }

/-- Safety bound for the re-arm of one acknowledged reminder: whatever the
re-arm step of the tick would compute for this row lies strictly beyond the
promotion cutoff now + 30s (vacuously true when the row would not re-arm). -/
def rearmSafe (tasks : List Task) (now : Int) (r : TaskReminder) : Bool :=
  match findTask tasks r.task_id with
  | none => true
  | some task =>
    if task.is_completed then true
    else
      match compute_next_fire_at r.reminder_type task.scheduled_date task.scheduled_time
          r.before_minutes 0 r.recurrence r.recurrence_days r.fired_at now with
      | none => true
      | some nf => decide (now + 30 < nf)

def exC4task : Task :=
  { id := 1, scheduled_date := 6, scheduled_time := 0, is_completed := false }

def exC4r : TaskReminder :=
  { id := 1, task_id := 1, reminder_type := "exact", before_minutes := 0,
    recurrence := some "weekdays", recurrence_days := none, status := "acknowledged",
    next_fire_at := none, snooze_until := none, fire_count := 3,
    fired_at := some (6 * 86400 + 43200 - 86400 + 10),
    acknowledged_at := some (6 * 86400 + 43200 - 100) }

def exC4db : Store := { tasks := [exC4task], reminders := [exC4r] }

def exC4wr : TaskReminder :=
  { id := 2, task_id := 1, reminder_type := "exact", before_minutes := 0,
    recurrence := some "weekdays", recurrence_days := none, status := "acknowledged",
    next_fire_at := none, snooze_until := none, fire_count := 3,
    fired_at := some (6 * 86400 + 43200 - 40000),
    acknowledged_at := some (6 * 86400 + 43200 - 100) }

def exC4wdb : Store := { tasks := [exC4task], reminders := [exC4wr] }

theorem advanceLoop_le (step now : Int) : ∀ n : Nat, ∀ cursor : Int,
    (now + step - cursor).toNat = n → cursor ≤ advanceLoop step now cursor := by
  intro n
  induction n using Nat.strong_induction_on with
  | _ n ih =>
    intro cursor hn
    rw [advanceLoop]
    split
    · next hcond =>
      have h2 := ih (now + step - (cursor + step)).toNat (by omega) (cursor + step) rfl
      omega
    · next hcond => omega

theorem cursor_le_advanceLoop (step now cursor : Int) :
    cursor ≤ advanceLoop step now cursor :=
  advanceLoop_le step now _ cursor rfl

theorem advanceLoop_now_lt (step now : Int) (hs : 0 < step) : ∀ n : Nat, ∀ cursor : Int,
    (now + step - cursor).toNat = n → now < advanceLoop step now cursor := by
  intro n
  induction n using Nat.strong_induction_on with
  | _ n ih =>
    intro cursor hn
    rw [advanceLoop]
    split
    · next hcond =>
      exact ih (now + step - (cursor + step)).toNat (by omega) (cursor + step) rfl
    · next hcond =>
      rcases not_and_or.mp hcond with h | h <;> omega

theorem now_lt_advanceLoop (step now cursor : Int) (hs : 0 < step) :
    now < advanceLoop step now cursor :=
  advanceLoop_now_lt step now hs _ cursor rfl

theorem advanceLoop_unfold (step now cursor : Int) (h1 : 0 < step) (h2 : cursor ≤ now) :
    advanceLoop step now cursor = advanceLoop step now (cursor + step) := by
  rw [advanceLoop]
  rw [dif_pos (⟨h1, h2⟩ : 0 < step ∧ cursor ≤ now)]

theorem lt_advanceLoop_of_le (step now cursor : Int) (h1 : 0 < step) (h2 : cursor ≤ now) :
    cursor < advanceLoop step now cursor := by
  rw [advanceLoop_unfold step now cursor h1 h2]
  have := cursor_le_advanceLoop step now (cursor + step)
  omega

theorem scanWeekdaysLoop_sound (now : Int) :
    ∀ (fuel : Nat) (cursor t : Int), scanWeekdaysLoop now fuel cursor = some t →
      weekday t < 5 ∧ now < t ∧ cursor ≤ t := by
  intro fuel
  induction fuel with
  | zero => intro c t h; simp [scanWeekdaysLoop] at h
  | succ n ih =>
    intro c t h
    rw [scanWeekdaysLoop] at h
    split at h
    · next hc =>
      cases h
      exact ⟨hc.1, hc.2, le_refl _⟩
    · next hc =>
      obtain ⟨h1, h2, h3⟩ := ih (c + 86400) t h
      exact ⟨h1, h2, by omega⟩

theorem scanCustomLoop_sound (allowed : List Int) (now : Int) :
    ∀ (fuel : Nat) (cursor t : Int), scanCustomLoop allowed now fuel cursor = some t →
      weekday t ∈ allowed ∧ now < t ∧ cursor ≤ t := by
  intro fuel
  induction fuel with
  | zero => intro c t h; simp [scanCustomLoop] at h
  | succ n ih =>
    intro c t h
    rw [scanCustomLoop] at h
    split at h
    · next hc =>
      cases h
      exact ⟨hc.1, hc.2, le_refl _⟩
    · next hc =>
      obtain ⟨h1, h2, h3⟩ := ih (c + 86400) t h
      exact ⟨h1, h2, by omega⟩

theorem promoteOne_eq_self_of_status (now : Int) (r : TaskReminder)
    (h : ¬ (r.status = "pending" ∨ r.status = "snoozed")) : promoteOne now r = r := by
  unfold promoteOne
  split
  · rfl
  · rw [if_neg]
    intro hc
    exact h hc.1

theorem promoteOne_eq_self_of_nfa (now : Int) (r : TaskReminder)
    (h : ∀ t, r.next_fire_at = some t → ¬ t ≤ now + 30) : promoteOne now r = r := by
  unfold promoteOne
  split
  · rfl
  · next t heq =>
    rw [if_neg]
    intro hc
    exact h t heq hc.2

theorem promoteOne_cases (now : Int) (r : TaskReminder) :
    promoteOne now r = r ∨ (promoteOne now r).status = "due" := by
  unfold promoteOne
  split
  · exact Or.inl rfl
  · split
    · exact Or.inr rfl
    · exact Or.inl rfl

theorem rearmOne_eq_self_of_status (tasks : List Task) (now : Int) (r : TaskReminder)
    (h : ¬ r.status = "acknowledged") : rearmOne tasks now r = r := by
  unfold rearmOne
  rw [if_neg]
  intro hc
  exact h hc.1

theorem rearmOne_cases (tasks : List Task) (now : Int) (r : TaskReminder) :
    rearmOne tasks now r = r ∨
    ((rearmOne tasks now r).status = "pending" ∧ r.status = "acknowledged" ∧
      ¬ r.recurrence = none ∧ ¬ r.recurrence = some "" ∧
      ∃ task nf, findTask tasks r.task_id = some task ∧ task.is_completed = false ∧
        compute_next_fire_at r.reminder_type task.scheduled_date task.scheduled_time
          r.before_minutes 0 r.recurrence r.recurrence_days r.fired_at now = some nf ∧
        (rearmOne tasks now r).next_fire_at = some nf) := by
  unfold rearmOne
  split
  · next hc =>
    split
    · exact Or.inl rfl
    · next task heq =>
      split
      · exact Or.inl rfl
      · next hdone =>
        split
        · next nf hnf =>
          refine Or.inr ⟨rfl, hc.1, hc.2.1, hc.2.2, task, nf, heq, by simpa using hdone,
            hnf, rfl⟩
        · exact Or.inl rfl
  · exact Or.inl rfl

theorem mem_createMissedLoop (now : Int) :
    ∀ (tasks : List Task) (rems : List TaskReminder) (x : TaskReminder),
      x ∈ rems → x ∈ createMissedLoop now tasks rems := by
  intro tasks
  induction tasks with
  | nil =>
    intro rems x hx
    simpa [createMissedLoop] using hx
  | cons task rest ih =>
    intro rems x hx
    rw [createMissedLoop]
    split
    · exact ih rems x hx
    · exact ih _ x (by simp [hx])

theorem tick_reminders (db : Store) (now : Int) :
    (tick db now).reminders =
      createMissedLoop now (overdueTasks db.tasks now)
        ((db.reminders.map (promoteOne now)).map (rearmOne db.tasks now)) := rfl

/-- Claim C1, amended: a pending or snoozed reminder is promoted to due by the
tick exactly when its next_fire_at is non-null and at most now + 30 s.  The
source filter has no lower bound, so the claimed window [now - 90 s, now + 30 s]
is wrong on the late side: arbitrarily late reminders are still promoted.  The
promoted row is an element of the post-tick store. -/
theorem C1_theorem (db : Store) (now : Int) (r : TaskReminder)
    (hmem : r ∈ db.reminders) (hst : r.status = "pending" ∨ r.status = "snoozed") :
    promoteOne now r ∈ (tick db now).reminders ∧
    ((promoteOne now r).status = "due" ↔
      (¬ r.next_fire_at = none ∧ r.next_fire_at.getD 0 ≤ now + 30)) := by
  have hnotack : ¬ (promoteOne now r).status = "acknowledged" := by
    rcases promoteOne_cases now r with h | h
    · rw [h]
      rcases hst with h2 | h2 <;> rw [h2] <;> decide
    · rw [h]; decide
  constructor
  · rw [tick_reminders]
    apply mem_createMissedLoop
    have h1 : promoteOne now r ∈ db.reminders.map (promoteOne now) :=
      List.mem_map_of_mem _ hmem
    have h2 := List.mem_map_of_mem (rearmOne db.tasks now) h1
    rwa [rearmOne_eq_self_of_status db.tasks now _ hnotack] at h2
  · unfold promoteOne
    split
    · next heq =>
      constructor
      · intro h
        rcases hst with h2 | h2 <;> rw [h2] at h <;> exact absurd h (by decide)
      · intro h
        exact absurd heq h.1
    · next t heq =>
      by_cases hle : t ≤ now + 30
      · rw [if_pos ⟨hst, hle⟩]
        simp [heq, hle]
      · rw [if_neg (fun hc => hle hc.2)]
        constructor
        · intro h
          rcases hst with h2 | h2 <;> rw [h2] at h <;> exact absurd h (by decide)
        · intro h
          rw [heq] at h
          exact absurd (by simpa using h.2) hle

/-- Claim C1, counterexample to the claim as stated: a pending reminder whose
next_fire_at is 91 s in the past lies outside the claimed activation window
(is_due returns false there), yet the tick promotes it to due. -/
theorem C1_counterexample :
    ((tick { tasks := [], reminders := [exC1r] } 1000000).reminders.map
      (fun r => r.status)) = ["due"] ∧
    is_due (some (1000000 - 91)) 90 1000000 = false := by decide

/-- Witness instantiating C1_theorem at a concrete store. -/
theorem C1_witness :
    promoteOne 1000 exC1wr ∈ (tick exC1wdb 1000).reminders ∧
    ((promoteOne 1000 exC1wr).status = "due" ↔
      (¬ exC1wr.next_fire_at = none ∧ exC1wr.next_fire_at.getD 0 ≤ 1000 + 30)) :=
  C1_theorem exC1wdb 1000 exC1wr (by decide) (Or.inl rfl)

/-- Claim C2, amended: whenever last_fired_at is present, or the base fire
instant is not strictly in the future, every instant returned for a weekdays
recurrence falls on Monday to Friday (weekday index 0 to 4) and every instant
returned for a custom recurrence has its weekday index in recurrence_days.  The
very first fire, with last_fired_at absent and a future base instant, is
returned without any weekday check. -/
theorem C2_theorem (rt : String) (hrt : ¬ rt = "missed") (sd st bm tz : Int)
    (rd : Option (List Int)) (ds : List Int) (l : Option Int) (now t : Int)
    (hfall : ¬ l = none ∨ task_scheduled_utc sd st tz - bm * 60 ≤ now) :
    (compute_next_fire_at rt sd st bm tz (some "weekdays") rd l now = some t →
      0 ≤ weekday t ∧ weekday t < 5) ∧
    (compute_next_fire_at rt sd st bm tz (some "custom") (some ds) l now = some t →
      weekday t ∈ ds) := by
  have hcond : ¬ (l = none ∧ now < task_scheduled_utc sd st tz - bm * 60) := by
    rcases hfall with h | h
    · exact fun hc => h hc.1
    · exact fun hc => absurd hc.2 (by omega)
  constructor
  · intro h
    simp only [compute_next_fire_at, if_neg hrt, Option.getD_some, if_neg hcond] at h
    norm_num at h
    obtain ⟨h1, h2, h3⟩ := scanWeekdaysLoop_sound now 14 _ t h
    exact ⟨Int.emod_nonneg _ (by norm_num), h1⟩
  · intro h
    simp only [compute_next_fire_at, if_neg hrt, Option.getD_some, if_neg hcond] at h
    norm_num at h
    obtain ⟨h1, h2, h3⟩ := scanCustomLoop_sound ds now 14 _ t h
    exact h1

/-- Claim C2, counterexample to the claim as stated: a weekdays reminder whose
task is scheduled on a future Saturday fires, on its very first occurrence, on
that Saturday (weekday index 5). -/
theorem C2_counterexample :
    compute_next_fire_at "exact" 2 600 0 0 (some "weekdays") none none 0 = some 208800 ∧
    weekday 208800 = 5 := by decide

/-- Witness instantiating C2_theorem at concrete inputs. -/
theorem C2_witness :
    (compute_next_fire_at "exact" 0 0 0 0 (some "weekdays") none (some 0) 100 =
        some 86400 → 0 ≤ weekday 86400 ∧ weekday 86400 < 5) ∧
    (compute_next_fire_at "exact" 0 0 0 0 (some "custom") (some [0, 2, 4]) (some 0) 100 =
        some 86400 → weekday 86400 ∈ [0, 2, 4]) :=
  C2_theorem "exact" (by decide) 0 0 0 0 none [0, 2, 4] (some 0) 100 86400
    (Or.inl (by decide))

/-- Claim C3, amended: for reminder_type missed the calculator returns the UTC
conversion of the next 09:00 local time: 09:00 of the current local day when
local time is before 09:00, and of the following local day otherwise.  The
result is always strictly after now, but it can fall on the same local calendar
day as now, contrary to the claim. -/
theorem C3_theorem (sd st bm tz : Int) (rcr : Option String) (rd : Option (List Int))
    (l : Option Int) (now : Int) :
    ∃ t, compute_next_fire_at "missed" sd st bm tz rcr rd l now = some t ∧
      now < t ∧
      (t + tz * 60) % 86400 = 32400 ∧
      (t + tz * 60) / 86400 =
        (if (now + tz * 60) % 86400 < 32400 then (now + tz * 60) / 86400
         else (now + tz * 60) / 86400 + 1) := by
  simp only [compute_next_fire_at, MISSED_REMINDER_HOUR_LOCAL, if_pos rfl]
  refine ⟨_, rfl, ?_, ?_, ?_⟩ <;> split <;> omega

/-- Claim C3, counterexample to the claim as stated: at local midnight the
missed calculator returns 09:00 of the same local day, not of the day after. -/
theorem C3_counterexample :
    compute_next_fire_at "missed" 0 0 0 0 none none none 0 = some 32400 ∧
    (32400 : Int) / 86400 = (0 : Int) / 86400 := by decide

/-- Claim C6, amended: for a recurring reminder the calculator returns an
instant strictly greater than now, and strictly greater than last_fired_at
provided the supplied last_fired_at does not lie in the future (true of every
real previous fire).  A daily or weekly call whose last_fired_at is beyond now
returns it unchanged. -/
theorem C6_theorem (rt : String) (hrt : ¬ rt = "missed") (sd st bm tz : Int)
    (rcr : String) (rd : Option (List Int)) (l : Option Int) (now t : Int)
    (hl : l.getD now ≤ now)
    (h : compute_next_fire_at rt sd st bm tz (some rcr) rd l now = some t) :
    now < t ∧ l.getD now < t := by
  simp only [compute_next_fire_at, if_neg hrt, Option.getD_some] at h
  split at h
  · split at h
    · cases h
      rcases l with _ | x
      · simp only [Option.getD_none] at hl ⊢
        omega
      · simp only [Option.getD_some] at hl ⊢
        omega
    · exact absurd h (by simp)
  · split at h
    · next hc =>
      cases h
      obtain ⟨hnone, hlt⟩ := hc
      subst hnone
      simp only [Option.getD_none]
      omega
    · next hc =>
      split at h
      · cases h
        have hnow := now_lt_advanceLoop 86400 now
          (l.getD (task_scheduled_utc sd st tz - bm * 60)) (by norm_num)
        rcases l with _ | x
        · simp only [Option.getD_none] at hnow ⊢
          exact ⟨hnow, hnow⟩
        · simp only [Option.getD_some] at hnow hl ⊢
          exact ⟨hnow, lt_advanceLoop_of_le 86400 now x (by norm_num) hl⟩
      · split at h
        · cases h
          have hnow := now_lt_advanceLoop 604800 now
            (l.getD (task_scheduled_utc sd st tz - bm * 60)) (by norm_num)
          rcases l with _ | x
          · simp only [Option.getD_none] at hnow ⊢
            exact ⟨hnow, hnow⟩
          · simp only [Option.getD_some] at hnow hl ⊢
            exact ⟨hnow, lt_advanceLoop_of_le 604800 now x (by norm_num) hl⟩
        · split at h
          · obtain ⟨h1, h2, h3⟩ := scanWeekdaysLoop_sound now 14 _ t h
            rcases l with _ | x
            · simp only [Option.getD_none] at hl ⊢
              exact ⟨h2, h2⟩
            · simp only [Option.getD_some] at hl h3 ⊢
              exact ⟨h2, by omega⟩
          · split at h
            · rcases rd with _ | allowed
              · simp at h
              · dsimp only at h
                obtain ⟨h1, h2, h3⟩ := scanCustomLoop_sound allowed now 14 _ t h
                rcases l with _ | x
                · simp only [Option.getD_none] at hl ⊢
                  exact ⟨h2, h2⟩
                · simp only [Option.getD_some] at hl h3 ⊢
                  exact ⟨h2, by omega⟩
            · exact absurd h (by simp)

/-- Claim C6, counterexample to the claim as stated: a daily recurrence whose
supplied last_fired_at (100) is in the future relative to now (0) returns
exactly that instant, which is not strictly greater than last_fired_at. -/
theorem C6_counterexample :
    compute_next_fire_at "exact" 0 0 0 0 (some "daily") none (some 100) 0 = some 100 ∧
    ¬ (100 : Int) < 100 := by
  constructor
  · simp only [compute_next_fire_at, task_scheduled_utc]
    rw [advanceLoop]
    decide
  · decide

/-- Witness instantiating C6_theorem at concrete inputs. -/
theorem C6_witness :
    (50 : Int) < 86400 ∧ (some (0 : Int)).getD 50 < 86400 :=
  C6_theorem "exact" (by decide) 0 0 0 0 "weekdays" none (some 0) 50 86400
    (by decide) (by decide)

/-- Claim C8: a one-shot calculator call (recurrence none) returns the base
instant exactly when it is strictly in the future and none otherwise; and
creating a one-shot non-missed reminder whose computed fire time has already
passed fails with the validation error, leaving the store unchanged. -/
theorem C8_theorem (db : Store) (body : ReminderCreate) (task : Task) (new_id now : Int)
    (hrt : ¬ body.reminder_type = "missed")
    (hfind : findTask db.tasks body.task_id = some task)
    (hcomp : task.is_completed = false)
    (hrec : body.recurrence = none) :
    (compute_next_fire_at body.reminder_type task.scheduled_date task.scheduled_time
        body.before_minutes body.tz_offset_minutes body.recurrence body.recurrence_days
        none now =
      (if now < task_scheduled_utc task.scheduled_date task.scheduled_time
            body.tz_offset_minutes - body.before_minutes * 60 then
        some (task_scheduled_utc task.scheduled_date task.scheduled_time
            body.tz_offset_minutes - body.before_minutes * 60)
       else none)) ∧
    (task_scheduled_utc task.scheduled_date task.scheduled_time body.tz_offset_minutes
        - body.before_minutes * 60 ≤ now →
      create_reminder db body new_id now =
        .error (.badRequest
          "Reminder time is already in the past and has no future recurrence.") ∧
      applyResult db (create_reminder db body new_id now) = db) := by
  have hfirst : compute_next_fire_at body.reminder_type task.scheduled_date
      task.scheduled_time body.before_minutes body.tz_offset_minutes body.recurrence
      body.recurrence_days none now =
      (if now < task_scheduled_utc task.scheduled_date task.scheduled_time
            body.tz_offset_minutes - body.before_minutes * 60 then
        some (task_scheduled_utc task.scheduled_date task.scheduled_time
            body.tz_offset_minutes - body.before_minutes * 60)
       else none) := by
    simp only [compute_next_fire_at, if_neg hrt, hrec, Option.getD_none]
    norm_num
  refine ⟨hfirst, fun hpast => ?_⟩
  have hcn : compute_next_fire_at body.reminder_type task.scheduled_date
      task.scheduled_time body.before_minutes body.tz_offset_minutes body.recurrence
      body.recurrence_days none now = none := by
    rw [hfirst, if_neg (by omega)]
  have herr : create_reminder db body new_id now =
      .error (.badRequest
        "Reminder time is already in the past and has no future recurrence.") := by
    unfold create_reminder
    rw [hfind]
    simp only [hcomp, Bool.false_eq_true, if_false, if_neg hrt, hcn]
  exact ⟨herr, by rw [herr]; rfl⟩

/-- Witness instantiating C8_theorem at a concrete store and body whose
computed fire time is in the past. -/
theorem C8_witness :
    (compute_next_fire_at exC8body.reminder_type exC8task.scheduled_date
        exC8task.scheduled_time exC8body.before_minutes exC8body.tz_offset_minutes
        exC8body.recurrence exC8body.recurrence_days none 100 =
      (if (100 : Int) < task_scheduled_utc exC8task.scheduled_date
            exC8task.scheduled_time exC8body.tz_offset_minutes
            - exC8body.before_minutes * 60 then
        some (task_scheduled_utc exC8task.scheduled_date exC8task.scheduled_time
            exC8body.tz_offset_minutes - exC8body.before_minutes * 60)
       else none)) ∧
    (task_scheduled_utc exC8task.scheduled_date exC8task.scheduled_time
        exC8body.tz_offset_minutes - exC8body.before_minutes * 60 ≤ 100 →
      create_reminder exC8db exC8body 5 100 =
        .error (.badRequest
          "Reminder time is already in the past and has no future recurrence.") ∧
      applyResult exC8db (create_reminder exC8db exC8body 5 100) = exC8db) :=
  C8_theorem exC8db exC8body exC8task 5 100 (by decide) (by decide) rfl rfl

/-- Claim C9: acknowledging or snoozing a reminder whose status is not due
fails with a 400 error whose detail names both the expected state (due) and the
actual state, and leaves the persisted store unchanged; when the status is due
both operations succeed. -/
theorem C9_theorem (db : Store) (rid m now : Int) (r : TaskReminder)
    (hfind : db.reminders.find? (fun x => x.id == rid) = some r) :
    (¬ r.status = "due" →
      acknowledge_reminder db rid now =
        .error (.badRequest
          ("Reminder is in \x27" ++ r.status ++ "\x27 state, not \x27due\x27.")) ∧
      snooze_reminder db rid m now =
        .error (.badRequest
          ("Can only snooze a \x27due\x27 reminder; current status is \x27"
            ++ r.status ++ "\x27.")) ∧
      applyResult db (acknowledge_reminder db rid now) = db ∧
      applyResult db (snooze_reminder db rid m now) = db) ∧
    (r.status = "due" →
      isOkResult (acknowledge_reminder db rid now) = true ∧
      isOkResult (snooze_reminder db rid m now) = true) := by
  constructor
  · intro hne
    have hack : acknowledge_reminder db rid now =
        .error (.badRequest
          ("Reminder is in \x27" ++ r.status ++ "\x27 state, not \x27due\x27.")) := by
      unfold acknowledge_reminder
      rw [hfind]
      dsimp only
      rw [if_pos hne]
    have hsn : snooze_reminder db rid m now =
        .error (.badRequest
          ("Can only snooze a \x27due\x27 reminder; current status is \x27"
            ++ r.status ++ "\x27.")) := by
      unfold snooze_reminder
      rw [hfind]
      dsimp only
      rw [if_pos hne]
    exact ⟨hack, hsn, by rw [hack]; rfl, by rw [hsn]; rfl⟩
  · intro hdue
    constructor
    · unfold acknowledge_reminder
      rw [hfind]
      dsimp only
      rw [if_neg (by simp [hdue])]
      rfl
    · unfold snooze_reminder
      rw [hfind]
      dsimp only
      rw [if_neg (by simp [hdue])]
      rfl

/-- Witness instantiating C9_theorem at a concrete store holding a pending
reminder. -/
theorem C9_witness :
    (¬ exC9r.status = "due" →
      acknowledge_reminder exC9db 4 200 =
        .error (.badRequest
          ("Reminder is in \x27" ++ exC9r.status ++ "\x27 state, not \x27due\x27.")) ∧
      snooze_reminder exC9db 4 10 200 =
        .error (.badRequest
          ("Can only snooze a \x27due\x27 reminder; current status is \x27"
            ++ exC9r.status ++ "\x27.")) ∧
      applyResult exC9db (acknowledge_reminder exC9db 4 200) = exC9db ∧
      applyResult exC9db (snooze_reminder exC9db 4 10 200) = exC9db) ∧
    (exC9r.status = "due" →
      isOkResult (acknowledge_reminder exC9db 4 200) = true ∧
      isOkResult (snooze_reminder exC9db 4 10 200) = true) :=
  C9_theorem exC9db 4 10 200 exC9r (by decide)

/-- Claim C10: the promotion step ignores task completion: a pending or
snoozed reminder satisfying the promotion filter is promoted to due even though
its referenced task is already completed, while the re-arm step leaves an
acknowledged reminder of a completed task untouched. -/
theorem C10_theorem (db : Store) (now : Int) (r : TaskReminder) (t : Int)
    (task : Task) (r2 : TaskReminder) (task2 : Task)
    (hmem : r ∈ db.reminders) (hst : r.status = "pending" ∨ r.status = "snoozed")
    (hnfa : r.next_fire_at = some t) (ht : t ≤ now + 30)
    (htask : findTask db.tasks r.task_id = some task) (hdone : task.is_completed = true)
    (hmem2 : r2 ∈ db.reminders) (hst2 : r2.status = "acknowledged")
    (htask2 : findTask db.tasks r2.task_id = some task2)
    (hdone2 : task2.is_completed = true) :
    { r with status := "due", fired_at := some now, fire_count := r.fire_count + 1 }
      ∈ (tick db now).reminders ∧
    rearmOne db.tasks now r2 = r2 := by
  have hpromo : promoteOne now r =
      { r with status := "due", fired_at := some now, fire_count := r.fire_count + 1 } := by
    unfold promoteOne
    rw [hnfa]
    dsimp only
    rw [if_pos ⟨hst, ht⟩]
  constructor
  · rw [tick_reminders]
    apply mem_createMissedLoop
    have h1 : promoteOne now r ∈ db.reminders.map (promoteOne now) :=
      List.mem_map_of_mem _ hmem
    have h2 := List.mem_map_of_mem (rearmOne db.tasks now) h1
    rw [rearmOne_eq_self_of_status db.tasks now _ (by rw [hpromo]; dsimp only; decide)] at h2
    rwa [hpromo] at h2
  · unfold rearmOne
    by_cases hc : ¬ r2.recurrence = none ∧ ¬ r2.recurrence = some ""
    · rw [if_pos ⟨hst2, hc.1, hc.2⟩, htask2]
      dsimp only
      rw [if_pos hdone2]
    · rw [if_neg (fun hx => hc ⟨hx.2.1, hx.2.2⟩)]

/-- Witness instantiating C10_theorem at a concrete store whose single task is
completed. -/
theorem C10_witness :
    exC10promoted ∈ (tick exC10db 1000).reminders ∧
    rearmOne exC10db.tasks 1000 exC10r2 = exC10r2 :=
  C10_theorem exC10db 1000 exC10r 995 exC10task exC10r2 exC10task
    (by decide) (Or.inl rfl) rfl (by decide) (by decide) rfl
    (by decide) rfl (by decide) rfl

/-- Claim C5: the code violates the invariant.  Evaluating the tick on a
snoozed reminder promotes it to due while leaving snooze_until set, so
snooze_until is non-null in a non-snoozed row, contradicting the claim and the
models.py column comment (NULL unless snoozed). -/
theorem C5_code_bug :
    ((tick { tasks := [], reminders := [exC5r] } 1000).reminders.map
      (fun r => (r.status, r.snooze_until))) = [("due", some 500)] := by decide

theorem activeMissedFor_mk (tid now : Int) :
    activeMissedFor tid (mkMissedReminder tid now) = true := by
  simp [activeMissedFor, mkMissedReminder]

theorem createMissedLoop_filter_stable (now tid : Int) :
    ∀ (tasks : List Task) (rems : List TaskReminder),
      (∃ r ∈ rems, activeMissedFor tid r = true) →
      (createMissedLoop now tasks rems).filter (activeMissedFor tid) =
        rems.filter (activeMissedFor tid) := by
  intro tasks
  induction tasks with
  | nil => intro rems hex; rfl
  | cons task rest ih =>
    intro rems hex
    rw [createMissedLoop]
    split
    · exact ih rems hex
    · next hfind =>
      by_cases hid : task.id = tid
      · exfalso
        obtain ⟨r, hr, hact⟩ := hex
        have hnot := List.find?_eq_none.mp hfind r hr
        rw [hid] at hnot
        exact hnot hact
      · obtain ⟨r, hr, hact⟩ := hex
        rw [ih _ ⟨r, List.mem_append_left _ hr, hact⟩, List.filter_append]
        simp [activeMissedFor, mkMissedReminder, hid]

theorem createMissedLoop_filter_new (now tid : Int) :
    ∀ (tasks : List Task) (rems : List TaskReminder),
      rems.filter (activeMissedFor tid) = [] →
      (∃ t ∈ tasks, t.id = tid) →
      (createMissedLoop now tasks rems).filter (activeMissedFor tid) =
        [mkMissedReminder tid now] := by
  intro tasks
  induction tasks with
  | nil =>
    intro rems h1 h2
    simp at h2
  | cons task rest ih =>
    intro rems h1 h2
    rw [createMissedLoop]
    split
    · next x hfind =>
      by_cases hid : task.id = tid
      · exfalso
        have hx1 := List.mem_of_find?_eq_some hfind
        have hx2 := List.find?_some hfind
        rw [hid] at hx2
        have := List.filter_eq_nil_iff.mp h1 x hx1
        exact this hx2
      · apply ih rems h1
        obtain ⟨t0, ht0, hid0⟩ := h2
        rcases List.mem_cons.mp ht0 with rfl | hmemr
        · exact absurd hid0 hid
        · exact ⟨t0, hmemr, hid0⟩
    · next hfind =>
      by_cases hid : task.id = tid
      · subst hid
        rw [createMissedLoop_filter_stable now task.id rest _
          ⟨mkMissedReminder task.id now, List.mem_append_right _ (by simp),
            activeMissedFor_mk task.id now⟩]
        rw [List.filter_append, h1]
        simp [activeMissedFor_mk]
      · apply ih
        · rw [List.filter_append, h1]
          simp [activeMissedFor, mkMissedReminder, hid]
        · obtain ⟨t0, ht0, hid0⟩ := h2
          rcases List.mem_cons.mp ht0 with rfl | hmemr
          · exact absurd hid0 hid
          · exact ⟨t0, hmemr, hid0⟩

theorem createMissedLoop_covers (now : Int) :
    ∀ (tasks : List Task) (rems : List TaskReminder) (t : Task), t ∈ tasks →
      ∃ r ∈ createMissedLoop now tasks rems, activeMissedFor t.id r = true := by
  intro tasks
  induction tasks with
  | nil =>
    intro rems t ht
    simp at ht
  | cons task rest ih =>
    intro rems t ht
    rw [createMissedLoop]
    rcases List.mem_cons.mp ht with rfl | hmemr
    · split
      · next x hfind =>
        exact ⟨x, mem_createMissedLoop now rest rems x (List.mem_of_find?_eq_some hfind),
          List.find?_some hfind⟩
      · next hfind =>
        exact ⟨mkMissedReminder t.id now,
          mem_createMissedLoop now rest _ _ (List.mem_append_right _ (by simp)),
          activeMissedFor_mk t.id now⟩
    · split
      · exact ih rems t hmemr
      · exact ih _ t hmemr

theorem createMissedLoop_eq_self (now : Int) :
    ∀ (tasks : List Task) (rems : List TaskReminder),
      (∀ t ∈ tasks, ∃ r ∈ rems, activeMissedFor t.id r = true) →
      createMissedLoop now tasks rems = rems := by
  intro tasks
  induction tasks with
  | nil => intro rems hcov; rfl
  | cons task rest ih =>
    intro rems hcov
    rw [createMissedLoop]
    split
    · exact ih rems (fun t ht => hcov t (by simp [ht]))
    · next hfind =>
      exfalso
      obtain ⟨r, hr, hact⟩ := hcov task (by simp)
      exact (List.find?_eq_none.mp hfind r hr) hact

/-- Claim C7: the missed-task detector creates exactly one missed reminder,
with status pending and next_fire_at 09:00 UTC of the following day, for an
incomplete task scheduled strictly before today and within the trailing 7-day
window that lacks an active missed reminder; and a second run of the detector
on the resulting store is the identity. -/
theorem C7_theorem (db : Store) (now : Int) (task : Task)
    (hmem : task ∈ db.tasks) (hinc : task.is_completed = false)
    (hd1 : now / 86400 - 7 ≤ task.scheduled_date)
    (hd2 : task.scheduled_date ≤ now / 86400 - 1)
    (hno : db.reminders.filter (activeMissedFor task.id) = []) :
    (create_missed_reminders db now).reminders.filter (activeMissedFor task.id) =
      [mkMissedReminder task.id now] ∧
    create_missed_reminders (create_missed_reminders db now) now =
      create_missed_reminders db now := by
  have hod : task ∈ overdueTasks db.tasks now := by
    rw [overdueTasks]
    refine List.mem_filter.mpr ⟨hmem, ?_⟩
    simp only [hinc, Bool.not_false, Bool.and_eq_true, decide_eq_true_eq, true_and]
    omega
  constructor
  · exact createMissedLoop_filter_new now task.id (overdueTasks db.tasks now)
      db.reminders hno ⟨task, hod, rfl⟩
  · have hcov : ∀ t ∈ overdueTasks db.tasks now,
        ∃ r ∈ (create_missed_reminders db now).reminders, activeMissedFor t.id r = true :=
      fun t ht => createMissedLoop_covers now (overdueTasks db.tasks now) db.reminders t ht
    have heq : createMissedLoop now (overdueTasks db.tasks now)
        (create_missed_reminders db now).reminders =
        (create_missed_reminders db now).reminders :=
      createMissedLoop_eq_self now (overdueTasks db.tasks now) _ hcov
    show Store.mk db.tasks
        (createMissedLoop now (overdueTasks db.tasks now)
          (create_missed_reminders db now).reminders)
      = create_missed_reminders db now
    rw [heq]
    rfl

/-- Witness instantiating C7_theorem at a concrete store with a task scheduled
three days before now and no reminders. -/
theorem C7_witness :
    (create_missed_reminders exC7db 864000).reminders.filter
        (activeMissedFor exC7task.id) = [mkMissedReminder exC7task.id 864000] ∧
    create_missed_reminders (create_missed_reminders exC7db 864000) 864000 =
      create_missed_reminders exC7db 864000 :=
  C7_theorem exC7db 864000 exC7task (by decide) rfl (by decide) (by decide) rfl

theorem list_map_id_of {α : Type} (l : List α) (f : α → α) (h : ∀ x ∈ l, f x = x) :
    l.map f = l := by
  induction l with
  | nil => rfl
  | cons a t ih =>
    rw [List.map_cons, h a (by simp), ih (fun x hx => h x (by simp [hx]))]

theorem mem_createMissedLoop_src (now : Int) :
    ∀ (tasks : List Task) (rems : List TaskReminder) (x : TaskReminder),
      x ∈ createMissedLoop now tasks rems →
      x ∈ rems ∨ ∃ tid, x = mkMissedReminder tid now := by
  intro tasks
  induction tasks with
  | nil =>
    intro rems x hx
    rw [createMissedLoop] at hx
    exact Or.inl hx
  | cons task rest ih =>
    intro rems x hx
    rw [createMissedLoop] at hx
    split at hx
    · exact ih rems x hx
    · rcases ih _ x hx with hmemr | hnew
      · rcases List.mem_append.mp hmemr with hl | hr2
        · exact Or.inl hl
        · simp only [List.mem_singleton] at hr2
          exact Or.inr ⟨task.id, hr2⟩
      · exact Or.inr hnew

theorem mkMissed_fixed (tasks : List Task) (now tid : Int) :
    promoteOne now (mkMissedReminder tid now) = mkMissedReminder tid now ∧
    rearmOne tasks now (mkMissedReminder tid now) = mkMissedReminder tid now := by
  constructor
  · apply promoteOne_eq_self_of_nfa
    intro t ht
    simp only [mkMissedReminder] at ht
    injection ht with ht2
    omega
  · apply rearmOne_eq_self_of_status
    simp [mkMissedReminder]

theorem tick_element_fixed (tasks : List Task) (now : Int) (r : TaskReminder)
    (hsafe : r.status = "acknowledged" → ¬ r.recurrence = none →
      ¬ r.recurrence = some "" → rearmSafe tasks now r = true) :
    promoteOne now (rearmOne tasks now (promoteOne now r)) =
      rearmOne tasks now (promoteOne now r) ∧
    rearmOne tasks now (rearmOne tasks now (promoteOne now r)) =
      rearmOne tasks now (promoteOne now r) := by
  rcases promoteOne_cases now r with hp | hp
  · rw [hp]
    rcases rearmOne_cases tasks now r with hq |
      ⟨hq1, hq2, hq3, hq4, task, nf, hfind, hdone, hcomp, hq5⟩
    · rw [hq, hp, hq]
      exact ⟨rfl, rfl⟩
    · have hsafe2 := hsafe hq2 hq3 hq4
      rw [rearmSafe, hfind] at hsafe2
      simp only [hdone, Bool.false_eq_true, if_false, hcomp, decide_eq_true_eq] at hsafe2
      constructor
      · apply promoteOne_eq_self_of_nfa
        intro t ht
        rw [hq5] at ht
        injection ht with ht2
        omega
      · apply rearmOne_eq_self_of_status
        rw [hq1]
        decide
  · have hne : ¬ (promoteOne now r).status = "acknowledged" := by
      rw [hp]; decide
    rw [rearmOne_eq_self_of_status tasks now _ hne]
    refine ⟨promoteOne_eq_self_of_status now _ ?_, rearmOne_eq_self_of_status tasks now _ hne⟩
    rw [hp]
    decide

/-- Claim C4, amended: the tick is idempotent provided every acknowledged
recurring reminder in the store would re-arm strictly beyond the promotion
cutoff now + 30 s (the rearmSafe bound).  Without that proviso a reminder
re-armed by the first run into the promotion window is promoted by the second
run, so the claim as stated is false. -/
theorem C4_theorem (db : Store) (now : Int)
    (hsafe : ∀ r ∈ db.reminders, r.status = "acknowledged" → ¬ r.recurrence = none →
      ¬ r.recurrence = some "" → rearmSafe db.tasks now r = true) :
    tick (tick db now) now = tick db now := by
  have hfix : ∀ x ∈ (tick db now).reminders,
      promoteOne now x = x ∧ rearmOne db.tasks now x = x := by
    intro x hx
    rw [tick_reminders] at hx
    rcases mem_createMissedLoop_src now _ _ x hx with hmemr | ⟨tid, rfl⟩
    · rcases List.mem_map.mp hmemr with ⟨y, hy, rfl⟩
      rcases List.mem_map.mp hy with ⟨r, hr, rfl⟩
      exact tick_element_fixed db.tasks now r (hsafe r hr)
    · exact mkMissed_fixed db.tasks now tid
  have h1 : (tick db now).reminders.map (promoteOne now) = (tick db now).reminders :=
    list_map_id_of _ _ (fun x hx => (hfix x hx).1)
  have h2 : (tick db now).reminders.map (rearmOne db.tasks now) = (tick db now).reminders :=
    list_map_id_of _ _ (fun x hx => (hfix x hx).2)
  have h3 : createMissedLoop now (overdueTasks db.tasks now) (tick db now).reminders =
      (tick db now).reminders := by
    apply createMissedLoop_eq_self
    intro t ht
    exact createMissedLoop_covers now (overdueTasks db.tasks now)
      ((db.reminders.map (promoteOne now)).map (rearmOne db.tasks now)) t ht
  show Store.mk db.tasks
      (createMissedLoop now (overdueTasks db.tasks now)
        (((tick db now).reminders.map (promoteOne now)).map (rearmOne db.tasks now)))
    = tick db now
  rw [h1, h2, h3]
  rfl

/-- Claim C4, counterexample to the claim as stated: an acknowledged weekdays
reminder whose recomputed next fire lands 10 s after now is re-armed to pending
by the first tick and promoted to due by the second tick run at the same
instant, so the second run does change state. -/
theorem C4_counterexample :
    tick (tick exC4db (6 * 86400 + 43200)) (6 * 86400 + 43200) ≠
      tick exC4db (6 * 86400 + 43200) := by decide

/-- Witness instantiating C4_theorem at a concrete store whose acknowledged
reminder re-arms well beyond the promotion cutoff. -/
theorem C4_witness :
    tick (tick exC4wdb (6 * 86400 + 43200)) (6 * 86400 + 43200) =
      tick exC4wdb (6 * 86400 + 43200) :=
  C4_theorem exC4wdb (6 * 86400 + 43200) (by decide)

end Scheduler
